import Mathlib

/-!
Shallow embedding of `svelte-check-daemon` (files `src/daemon.ts`,
`src/client.ts`) and proofs about it.

JavaScript strings are embedded as `List Char`.  External inputs of the
runtime (`Date.now()`, `fs.existsSync`, socket events, `JSON.parse`) are
passed as explicit arguments to the embedded functions.
-/

set_option maxHeartbeats 1000000

abbrev Str := List Char

/-- Coerce a Lean string literal to the `List Char` embedding. -/
def str (s : String) : Str := s.data

/-- `interface DaemonState` from `daemon.ts`. -/
structure DaemonState where
  output : Str
  hasErrors : Bool
  hasWarnings : Bool
  isComplete : Bool
  lastUpdate : Nat
deriving Repr, DecidableEq

/-- The mutable fields of `class SvelteCheckDaemon` that the core logic
reads and writes: the snapshot, the parser accumulation buffers, the
child-process handle (as a liveness flag) and the big-changes known-file
set. -/
structure Daemon where
  lastCompleteState : DaemonState
  currentOutput : Str
  lineBuffer : Str
  processAlive : Bool
  knownFiles : List Str
deriving Repr, DecidableEq

/-- The cycle-start marker `'Getting Svelte diagnostics...'`. -/
def gettingMarker : Str := str "Getting Svelte diagnostics..."

/-- JS `s.split('\n')`: list of pieces between newlines (always nonempty,
an empty string yields `[[]]`, a trailing newline yields a final `[]`). -/
def splitNl : Str → List Str
  | [] => [[]]
  | c :: rest =>
    if c = '\n' then [] :: splitNl rest
    else
      match splitNl rest with
      | [] => [[c]]
      | l :: ls => (c :: l) :: ls

/-- Strip a literal pattern from the front of a string, returning the
remainder on success. -/
def dropPref : Str → Str → Option Str
  | [], s => some s
  | _ :: _, [] => none
  | p :: ps, c :: cs => if p = c then dropPref ps cs else none

/-- Decimal value of a digit string (JS `parseInt(d, 10)` on a `\d+`
capture). -/
def digitsToNat (ds : Str) : Nat :=
  ds.foldl (fun a c => a * 10 + (c.toNat - 48)) 0

/-- Match the regex `svelte-check found (\d+) errors? and (\d+) warnings?`
anchored at the start of `l`, returning the two captures.  The greedy
`\d+` is a maximal digit run (a shorter run would leave a digit where a
space is required, so no backtracking case is reachable); likewise for
`s?` the follow-up literal cannot begin with `s`. -/
def matchSummaryAt (l : Str) : Option (Nat × Nat) := do
  let r1 ← dropPref (str "svelte-check found ") l
  let ds1 := r1.takeWhile Char.isDigit
  if ds1.isEmpty then none else
  let r2 := r1.drop ds1.length
  let r3 ← dropPref (str " error") r2
  let r4 := if r3.head? = some 's' then r3.tail else r3
  let r5 ← dropPref (str " and ") r4
  let ds2 := r5.takeWhile Char.isDigit
  if ds2.isEmpty then none else
  let r6 := r5.drop ds2.length
  let _ ← dropPref (str " warning") r6
  pure (digitsToNat ds1, digitsToNat ds2)

/-- JS `line.match(/svelte-check found (\d+) errors? and (\d+) warnings?/)`:
leftmost match, returning the numeric captures. -/
def summaryMatch (l : Str) : Option (Nat × Nat) :=
  match matchSummaryAt l with
  | some r => some r
  | none =>
    match l with
    | [] => none
    | _ :: rest => summaryMatch rest

/-- Consume one optional leading newline (the `\n?` of the cleanup
regexes). -/
def dropNl (l : Str) : Str :=
  match l with
  | '\n' :: rest => rest
  | _ => l

theorem dropNl_length_le (l : Str) : (dropNl l).length ≤ l.length := by
  unfold dropNl
  split
  · simp
  · exact Nat.le_refl _

/-- Length of the maximal run of `=` at the front (the greedy `={36,}`
match length). -/
def eqRun (l : Str) : Nat := (l.takeWhile (fun x => x = '=')).length

/-- JS `.replace(/={36,}\n?/g, '')`: left-to-right scan removing each
maximal run of at least 36 `=` together with one following newline. -/
def stripSeparators (l : Str) : Str :=
  match l with
  | [] => []
  | c :: rest =>
    if c = '=' then
      if 36 ≤ eqRun (c :: rest) then
        stripSeparators (dropNl (rest.drop (eqRun (c :: rest) - 1)))
      else
        c :: stripSeparators rest
    else
      c :: stripSeparators rest
termination_by l.length
decreasing_by
  · have h1 : (dropNl (rest.drop (eqRun (c :: rest) - 1))).length ≤
        (rest.drop (eqRun (c :: rest) - 1)).length := dropNl_length_le _
    have h2 : (rest.drop (eqRun (c :: rest) - 1)).length ≤ rest.length :=
      by simpa using List.length_drop_le (eqRun (c :: rest) - 1) rest
    simp only [List.length_cons]
    omega
  · simp [Nat.lt_succ_self]
  · simp [Nat.lt_succ_self]

/-- The literal of the footer-cleanup regex. -/
def watchingLine : Str := str "Watching for file changes..."

theorem dropPref_length {p s r : Str} (h : dropPref p s = some r) :
    r.length + p.length = s.length := by
  induction p generalizing s with
  | nil => simp [dropPref] at h; simp [h]
  | cons x xs ih =>
    cases s with
    | nil => simp [dropPref] at h
    | cons c cs =>
      simp only [dropPref] at h
      split at h
      · have := ih h
        simp only [List.length_cons]
        omega
      · exact absurd h (by simp)

/-- JS `.replace(/Watching for file changes\.\.\.\n?/g, '')`. -/
def stripWatching (l : Str) : Str :=
  match l with
  | [] => []
  | c :: rest =>
    match h : dropPref watchingLine (c :: rest) with
    | some r => stripWatching (dropNl r)
    | none => c :: stripWatching rest
termination_by l.length
decreasing_by
  · have h1 : (dropNl r).length ≤ r.length := dropNl_length_le _
    have h2 : r.length + watchingLine.length = (c :: rest).length :=
      dropPref_length h
    have h3 : 0 < watchingLine.length := by decide
    simp only [List.length_cons] at h2 ⊢
    omega
  · simp [Nat.lt_succ_self]

/-- The whitespace class of JS `trimEnd` (restricted to the ASCII
whitespace characters; the checker's output is ASCII). -/
def isJsSpace (c : Char) : Bool :=
  c = ' ' || c = '\t' || c = '\n' || c = '\r' || c = '\x0b' || c = '\x0c'

/-- JS `.trimEnd()`. -/
def trimEnd (l : Str) : Str :=
  (l.reverse.dropWhile isJsSpace).reverse

/-- The cleanup pipeline applied to `currentOutput` when a summary line is
parsed (`daemon.ts` lines 219–222). -/
def cleanOutput (l : Str) : Str :=
  trimEnd (stripWatching (stripSeparators l))

/-- JS `hay.includes(needle)`: substring test. -/
def strIncludes : Str → Str → Bool
  | hay, needle =>
    (dropPref needle hay).isSome ||
      match hay with
      | [] => false
      | _ :: rest => strIncludes rest needle

/-- `handleLine` (`daemon.ts` lines 212–232): append the line to
`currentOutput`; if it is a summary line, finalize the snapshot and reset
the accumulation buffer.  Also returns the finalized snapshot, when one
was committed. -/
def handleLine (now : Nat) (st : Daemon) (line : Str) :
    Daemon × Option DaemonState :=
  let cur := st.currentOutput ++ line ++ ['\n']
  match summaryMatch line with
  | some (errorCount, warningCount) =>
    let snap : DaemonState :=
      { output := cleanOutput cur
        hasErrors := decide (0 < errorCount)
        hasWarnings := decide (0 < warningCount)
        isComplete := true
        lastUpdate := now }
    ({ st with lastCompleteState := snap, currentOutput := [] }, some snap)
  | none => ({ st with currentOutput := cur }, none)

/-- The `for (const line of lines) this.handleLine(line)` loop, collecting
the finalized snapshots in order. -/
def handleLines (now : Nat) (st : Daemon) (ls : List Str) :
    Daemon × List DaemonState :=
  match ls with
  | [] => (st, [])
  | l :: rest =>
    let p := handleLine now st l
    let q := handleLines now p.1 rest
    (q.1, p.2.toList ++ q.2)

/-- `handleOutput` (`daemon.ts` lines 194–210): chunk-level marker check,
then line reassembly and per-line handling. -/
def handleOutput (now : Nat) (st : Daemon) (data : Str) :
    Daemon × List DaemonState :=
  let st1 :=
    if strIncludes data gettingMarker then
      { st with lastCompleteState :=
          { st.lastCompleteState with isComplete := false, lastUpdate := now } }
    else st
  let parts := splitNl (st1.lineBuffer ++ data)
  let st2 := { st1 with lineBuffer := parts.getLastD [] }
  handleLines now st2 parts.dropLast

/-- Feed a sequence of chunks arriving at successive times, collecting all
finalized snapshots in order. -/
def feedChunks (now : Nat) (st : Daemon) (chunks : List Str) :
    Daemon × List DaemonState :=
  match chunks with
  | [] => (st, [])
  | c :: rest =>
    let p := handleOutput now st c
    let q := feedChunks (now + 1) p.1 rest
    (q.1, p.2 ++ q.2)

/-- The chunk-boundary-independent content of a finalized snapshot: the
fields named by the fragmentation property (everything except the wall
clock `lastUpdate`). -/
def snapFacts (s : DaemonState) : Str × Bool × Bool × Bool :=
  (s.output, s.hasErrors, s.hasWarnings, s.isComplete)

abbrev Facts := Str × Bool × Bool × Bool

/-- Pure core of `handleLine`: the new accumulation buffer and the
`snapFacts` of the emitted snapshot, as a function of the old buffer and
the line alone. -/
def lineStepP (cur : Str) (l : Str) : Str × Option Facts :=
  let cur2 := cur ++ l ++ ['\n']
  match summaryMatch l with
  | some (n, m) =>
    ([], some (cleanOutput cur2, decide (0 < n), decide (0 < m), true))
  | none => (cur2, none)

/-- Pure core of `handleLines`. -/
def linesStepP (cur : Str) (ls : List Str) : Str × List Facts :=
  match ls with
  | [] => (cur, [])
  | l :: rest =>
    let p := lineStepP cur l
    let q := linesStepP p.1 rest
    (q.1, p.2.toList ++ q.2)

/-- Pure core of `handleOutput`: new accumulation buffer, new line buffer
and emitted facts. -/
def chunkStepP (cur buf : Str) (d : Str) : Str × Str × List Facts :=
  let parts := splitNl (buf ++ d)
  let p := linesStepP cur parts.dropLast
  (p.1, parts.getLastD [], p.2)

/-- Pure core of `feedChunks`. -/
def feedP (cur buf : Str) (chunks : List Str) : Str × Str × List Facts :=
  match chunks with
  | [] => (cur, buf, [])
  | c :: rest =>
    let p := chunkStepP cur buf c
    let q := feedP p.1 p.2.1 rest
    (q.1, q.2.1, p.2.2 ++ q.2.2)

theorem splitNl_ne_nil (s : Str) : splitNl s ≠ [] := by
  match s with
  | [] => simp [splitNl]
  | c :: rest =>
    simp only [splitNl]
    split
    · simp
    · split <;> simp

/-- Graft a pending partial line onto the first piece of a split. -/
def consHead (p : Str) (l : List Str) : List Str :=
  match l with
  | [] => [p]
  | x :: xs => (p ++ x) :: xs

theorem consHead_ne_nil (p : Str) (l : List Str) : consHead p l ≠ [] := by
  unfold consHead; split <;> simp

theorem getLastD_indep {α : Type} {l : List α} (h : l ≠ []) (d d' : α) :
    l.getLastD d = l.getLastD d' := by
  cases l with
  | nil => exact absurd rfl h
  | cons x xs => rw [List.getLastD_cons, List.getLastD_cons]

theorem getLastD_append_of_ne_nil {α : Type} {l₂ : List α} (h : l₂ ≠ [])
    (l₁ : List α) (d : α) : (l₁ ++ l₂).getLastD d = l₂.getLastD d := by
  induction l₁ generalizing d with
  | nil => rfl
  | cons x xs ih =>
    rw [List.cons_append, List.getLastD_cons, ih x]
    exact getLastD_indep h x d

theorem splitNl_append (a b : Str) :
    splitNl (a ++ b) =
      (splitNl a).dropLast ++
        consHead ((splitNl a).getLastD []) (splitNl b) := by
  induction a with
  | nil =>
    cases hb : splitNl b with
    | nil => exact absurd hb (splitNl_ne_nil b)
    | cons z zs => simp [splitNl, consHead, hb]
  | cons c a' ih =>
    by_cases hc : c = '\n'
    · subst hc
      have hne := splitNl_ne_nil a'
      rw [List.cons_append]
      have h1 : splitNl ('\n' :: (a' ++ b)) = [] :: splitNl (a' ++ b) := by
        simp [splitNl]
      have h2 : splitNl ('\n' :: a') = [] :: splitNl a' := by
        simp [splitNl]
      rw [h1, h2, List.dropLast_cons_of_ne_nil hne, List.getLastD_cons,
        List.cons_append, ih]
    · rw [List.cons_append]
      have h1 : splitNl (c :: (a' ++ b)) =
          match splitNl (a' ++ b) with
          | [] => [[c]]
          | l :: ls => (c :: l) :: ls := by
        simp only [splitNl, if_neg hc]
      have h2 : splitNl (c :: a') =
          match splitNl a' with
          | [] => [[c]]
          | y :: ys => (c :: y) :: ys := by
        simp only [splitNl, if_neg hc]
      cases ha : splitNl a' with
      | nil => exact absurd ha (splitNl_ne_nil a')
      | cons y ys =>
        cases hb : splitNl b with
        | nil => exact absurd hb (splitNl_ne_nil b)
        | cons z zs =>
          rw [h1, ih, h2, ha, hb]
          cases ys with
          | nil =>
            simp [consHead, List.getLastD_cons, List.getLastD_nil]
          | cons w ws =>
            have hne : (w :: ws : List Str) ≠ [] := by simp
            simp only [List.getLastD_cons, List.dropLast_cons_of_ne_nil hne]
            simp [consHead]

theorem splitNl_getLastD_no_nl (s : Str) : '\n' ∉ (splitNl s).getLastD [] := by
  induction s with
  | nil => simp [splitNl]
  | cons c rest ih =>
    by_cases hc : c = '\n'
    · subst hc
      have h1 : splitNl ('\n' :: rest) = [] :: splitNl rest := by
        simp [splitNl]
      rw [h1, List.getLastD_cons]
      exact ih
    · have h1 : splitNl (c :: rest) =
          match splitNl rest with
          | [] => [[c]]
          | y :: ys => (c :: y) :: ys := by
        simp only [splitNl, if_neg hc]
      cases hr : splitNl rest with
      | nil => exact absurd hr (splitNl_ne_nil rest)
      | cons y ys =>
        rw [h1, hr]
        rw [hr] at ih
        cases ys with
        | nil =>
          simp only [List.getLastD_cons, List.getLastD_nil] at ih ⊢
          intro hmem
          rcases List.mem_cons.mp hmem with h | h
          · exact hc h.symm
          · exact ih h
        | cons w ws =>
          simp only [List.getLastD_cons] at ih ⊢
          exact ih

theorem splitNl_of_no_nl {s : Str} (h : '\n' ∉ s) : splitNl s = [s] := by
  induction s with
  | nil => rfl
  | cons c rest ih =>
    have hc : ¬ c = '\n' := fun e => h (e ▸ List.mem_cons_self c rest)
    have hr : '\n' ∉ rest := fun m => h (List.mem_cons_of_mem c m)
    simp only [splitNl, if_neg hc, ih hr]

theorem linesStepP_append (cur : Str) (l1 l2 : List Str) :
    linesStepP cur (l1 ++ l2) =
      ((linesStepP (linesStepP cur l1).1 l2).1,
        (linesStepP cur l1).2 ++ (linesStepP (linesStepP cur l1).1 l2).2) := by
  induction l1 generalizing cur with
  | nil => simp [linesStepP]
  | cons l rest ih => simp [linesStepP, ih]

theorem chunkStepP_append (cur buf a b : Str) :
    chunkStepP cur buf (a ++ b) =
      ((chunkStepP (chunkStepP cur buf a).1 (chunkStepP cur buf a).2.1 b).1,
        (chunkStepP (chunkStepP cur buf a).1 (chunkStepP cur buf a).2.1 b).2.1,
        (chunkStepP cur buf a).2.2 ++
          (chunkStepP (chunkStepP cur buf a).1
            (chunkStepP cur buf a).2.1 b).2.2) := by
  have hg : '\n' ∉ (splitNl (buf ++ a)).getLastD [] := splitNl_getLastD_no_nl _
  have hC : splitNl ((splitNl (buf ++ a)).getLastD [] ++ b) =
      consHead ((splitNl (buf ++ a)).getLastD []) (splitNl b) := by
    rw [splitNl_append, splitNl_of_no_nl hg]
    simp [List.getLastD_cons, List.getLastD_nil]
  have hCne : splitNl ((splitNl (buf ++ a)).getLastD [] ++ b) ≠ [] :=
    splitNl_ne_nil _
  rw [hC] at hCne
  unfold chunkStepP
  simp only [← List.append_assoc]
  rw [splitNl_append (buf ++ a) b, ← hC,
    List.dropLast_append_of_ne_nil _ (hC ▸ hCne),
    getLastD_append_of_ne_nil (hC ▸ hCne) _ [],
    linesStepP_append]

theorem feedP_join (cur buf : Str) (chunks : List Str) (h : '\n' ∉ buf) :
    feedP cur buf chunks = chunkStepP cur buf chunks.flatten := by
  induction chunks generalizing cur buf with
  | nil =>
    simp only [feedP, List.flatten_nil]
    unfold chunkStepP
    rw [List.append_nil, splitNl_of_no_nl h]
    simp [linesStepP, List.getLastD_cons]
  | cons c rest ih =>
    simp only [feedP, List.flatten_cons]
    rw [chunkStepP_append cur buf c rest.flatten,
      ih _ _ (by
        simpa [chunkStepP] using splitNl_getLastD_no_nl (buf ++ c))]

theorem handleLine_core (now : Nat) (st : Daemon) (line : Str) :
    (handleLine now st line).1.currentOutput =
        (lineStepP st.currentOutput line).1 ∧
      (handleLine now st line).1.lineBuffer = st.lineBuffer ∧
      (handleLine now st line).2.map snapFacts =
        (lineStepP st.currentOutput line).2 := by
  unfold handleLine lineStepP
  cases h : summaryMatch line with
  | none => simp
  | some r =>
    obtain ⟨n, m⟩ := r
    simp [snapFacts]

theorem handleLines_core (now : Nat) (st : Daemon) (ls : List Str) :
    (handleLines now st ls).1.currentOutput =
        (linesStepP st.currentOutput ls).1 ∧
      (handleLines now st ls).1.lineBuffer = st.lineBuffer ∧
      (handleLines now st ls).2.map snapFacts =
        (linesStepP st.currentOutput ls).2 := by
  induction ls generalizing st with
  | nil => simp [handleLines, linesStepP]
  | cons l rest ih =>
    obtain ⟨h1, h2, h3⟩ := handleLine_core now st l
    obtain ⟨ih1, ih2, ih3⟩ := ih (handleLine now st l).1
    refine ⟨?_, ?_, ?_⟩
    · simpa [handleLines, linesStepP, h1] using ih1
    · simpa [handleLines, linesStepP, h2] using ih2
    · have htl : (handleLine now st l).2.toList.map snapFacts =
          (lineStepP st.currentOutput l).2.toList := by
        cases ho : (handleLine now st l).2 with
        | none => rw [ho] at h3; simp [← h3]
        | some s => rw [ho] at h3; simp [← h3]
      simp only [handleLines, linesStepP, List.map_append]
      rw [htl, h1] at *
      simp [ih3, h1]

theorem handleOutput_core (now : Nat) (st : Daemon) (data : Str) :
    (handleOutput now st data).1.currentOutput =
        (chunkStepP st.currentOutput st.lineBuffer data).1 ∧
      (handleOutput now st data).1.lineBuffer =
        (chunkStepP st.currentOutput st.lineBuffer data).2.1 ∧
      (handleOutput now st data).2.map snapFacts =
        (chunkStepP st.currentOutput st.lineBuffer data).2.2 := by
  unfold handleOutput chunkStepP
  cases hm : strIncludes data gettingMarker <;>
    · simp only [hm]
      obtain ⟨h1, h2, h3⟩ := handleLines_core now _
        (splitNl (st.lineBuffer ++ data)).dropLast
      exact ⟨by simpa using h1, by simpa using h2, by simpa using h3⟩

theorem feedChunks_core (now : Nat) (st : Daemon) (chunks : List Str) :
    (feedChunks now st chunks).1.currentOutput =
        (feedP st.currentOutput st.lineBuffer chunks).1 ∧
      (feedChunks now st chunks).1.lineBuffer =
        (feedP st.currentOutput st.lineBuffer chunks).2.1 ∧
      (feedChunks now st chunks).2.map snapFacts =
        (feedP st.currentOutput st.lineBuffer chunks).2.2 := by
  induction chunks generalizing st now with
  | nil => simp [feedChunks, feedP]
  | cons c rest ih =>
    obtain ⟨h1, h2, h3⟩ := handleOutput_core now st c
    obtain ⟨ih1, ih2, ih3⟩ := ih (now + 1) (handleOutput now st c).1
    rw [h1, h2] at ih1 ih2 ih3
    refine ⟨?_, ?_, ?_⟩
    · simpa [feedChunks, feedP] using ih1
    · simpa [feedChunks, feedP] using ih2
    · simp only [feedChunks, feedP, List.map_append]
      rw [h3, ih3]

/-- The field initializers of `class SvelteCheckDaemon` (before `start()`
runs): empty output, no process, empty buffers, empty known-file set. -/
def initDaemon (now : Nat) : Daemon :=
  { lastCompleteState :=
      { output := []
        hasErrors := false
        hasWarnings := false
        isComplete := false
        lastUpdate := now }
    currentOutput := []
    lineBuffer := []
    processAlive := false
    knownFiles := [] }

/-- C1: for every way of splitting an output stream into chunks at
arbitrary boundaries, feeding the chunks to the parser in order produces
the same sequence of finalized snapshots (same `output`, `hasErrors`,
`hasWarnings`, `isComplete` values, in the same order) as feeding the
whole stream as one chunk.  Holds from any parser state whose pending
partial-line buffer is newline-free (true initially and preserved by the
parser), with no well-formedness assumption on the stream. -/
theorem chunking_independent (t t' : Nat) (st : Daemon) (chunks : List Str)
    (h : '\n' ∉ st.lineBuffer) :
    (feedChunks t st chunks).2.map snapFacts =
      (handleOutput t' st chunks.flatten).2.map snapFacts := by
  obtain ⟨-, -, h3⟩ := feedChunks_core t st chunks
  obtain ⟨-, -, h3'⟩ := handleOutput_core t' st chunks.flatten
  rw [h3, h3', feedP_join _ _ _ h]

/-- Witness for C1 at a concrete fragmentation: two summary lines, each
split across chunk boundaries. -/
theorem chunking_independent_witness :
    ('\n' ∉ (initDaemon 0).lineBuffer) ∧
      (feedChunks 5 (initDaemon 0)
          [str "svelte-check found 1 err",
            str "or and 0 warnings\nsvelte-check found 0 errors and 2 ",
            str "warnings\n"]).2.map snapFacts =
        (handleOutput 9 (initDaemon 0)
          ([str "svelte-check found 1 err",
            str "or and 0 warnings\nsvelte-check found 0 errors and 2 ",
            str "warnings\n"].flatten)).2.map snapFacts :=
  ⟨by decide, chunking_independent 5 9 (initDaemon 0) _ (by decide)⟩

/-- C4: a parsed summary line reporting `n` errors and `m` warnings
finalizes the snapshot with `hasErrors = n > 0`, `hasWarnings = m > 0`
and `isComplete = true`. -/
theorem summary_line_flags (now : Nat) (st : Daemon) (line : Str)
    (n m : Nat) (h : summaryMatch line = some (n, m)) :
    (handleLine now st line).1.lastCompleteState.hasErrors = decide (0 < n) ∧
      (handleLine now st line).1.lastCompleteState.hasWarnings =
        decide (0 < m) ∧
      (handleLine now st line).1.lastCompleteState.isComplete = true := by
  simp [handleLine, h]

/-- Witness for C4 at the zero-errors zero-warnings summary line. -/
theorem summary_line_flags_witness :
    summaryMatch (str "svelte-check found 0 errors and 0 warnings") =
        some (0, 0) ∧
      ((handleLine 3 (initDaemon 0)
            (str "svelte-check found 0 errors and 0 warnings")).1.lastCompleteState.hasErrors =
          decide (0 < 0) ∧
        (handleLine 3 (initDaemon 0)
            (str "svelte-check found 0 errors and 0 warnings")).1.lastCompleteState.hasWarnings =
          decide (0 < 0) ∧
        (handleLine 3 (initDaemon 0)
            (str "svelte-check found 0 errors and 0 warnings")).1.lastCompleteState.isComplete =
          true) :=
  ⟨by decide, summary_line_flags 3 (initDaemon 0) _ 0 0 (by decide)⟩

/-- C5: finalizing on a summary line commits exactly the accumulated text
(including that line), cleaned by removing separator runs and the
watching footer and trimming trailing whitespace, and resets the
accumulation buffer to empty. -/
theorem finalize_output (now : Nat) (st : Daemon) (line : Str) (n m : Nat)
    (h : summaryMatch line = some (n, m)) :
    (handleLine now st line).1.lastCompleteState.output =
        cleanOutput (st.currentOutput ++ line ++ ['\n']) ∧
      (handleLine now st line).1.currentOutput = [] := by
  simp [handleLine, h]

/-- Witness for C5 on a buffer holding a diagnostic line and a separator
line, finalized by a one-error summary. -/
theorem finalize_output_witness :
    summaryMatch (str "svelte-check found 1 error and 0 warnings") =
        some (1, 0) ∧
      ((handleLine 7
            { initDaemon 0 with currentOutput := str "Error: bad\n" }
            (str "svelte-check found 1 error and 0 warnings")).1.lastCompleteState.output =
          cleanOutput ((str "Error: bad\n") ++
            (str "svelte-check found 1 error and 0 warnings") ++ ['\n']) ∧
        (handleLine 7
            { initDaemon 0 with currentOutput := str "Error: bad\n" }
            (str "svelte-check found 1 error and 0 warnings")).1.currentOutput =
          []) :=
  ⟨by decide,
    finalize_output 7 { initDaemon 0 with currentOutput := str "Error: bad\n" }
      _ 1 0 (by decide)⟩

/-- The complete lines the parser extracts while feeding `chunks` starting
from pending partial line `buf`. -/
def chunkLines (buf : Str) (chunks : List Str) : List Str :=
  match chunks with
  | [] => []
  | c :: rest =>
    (splitNl (buf ++ c)).dropLast ++
      chunkLines ((splitNl (buf ++ c)).getLastD []) rest

theorem handleLines_no_summary (now : Nat) (st : Daemon) (ls : List Str)
    (h : ∀ l ∈ ls, summaryMatch l = none) :
    (handleLines now st ls).1.lastCompleteState = st.lastCompleteState := by
  induction ls generalizing st with
  | nil => simp [handleLines]
  | cons l rest ih =>
    have hl := h l (List.mem_cons_self l rest)
    have hr : ∀ x ∈ rest, summaryMatch x = none :=
      fun x hx => h x (List.mem_cons_of_mem l hx)
    simp only [handleLines]
    rw [ih _ hr]
    simp [handleLine, hl]

theorem handleOutput_no_summary (now : Nat) (st : Daemon) (data : Str)
    (h : ∀ l ∈ (splitNl (st.lineBuffer ++ data)).dropLast,
      summaryMatch l = none) :
    (handleOutput now st data).1.lastCompleteState.output =
        st.lastCompleteState.output ∧
      (handleOutput now st data).1.lastCompleteState.isComplete =
        (if strIncludes data gettingMarker then false
          else st.lastCompleteState.isComplete) := by
  unfold handleOutput
  cases hm : strIncludes data gettingMarker <;>
    · simp only [hm]
      rw [handleLines_no_summary _ _ _ (by simpa using h)]
      simp

theorem feed_no_summary_incomplete (t : Nat) (st : Daemon)
    (chunks : List Str)
    (h0 : st.lastCompleteState.isComplete = false)
    (hl : ∀ l ∈ chunkLines st.lineBuffer chunks, summaryMatch l = none) :
    (feedChunks t st chunks).1.lastCompleteState.isComplete = false ∧
      (feedChunks t st chunks).1.lastCompleteState.output =
        st.lastCompleteState.output := by
  induction chunks generalizing st t with
  | nil => exact ⟨h0, rfl⟩
  | cons c rest ih =>
    have hc : ∀ l ∈ (splitNl (st.lineBuffer ++ c)).dropLast,
        summaryMatch l = none := by
      intro l hmem
      apply hl l
      simp only [chunkLines, List.mem_append]
      exact Or.inl hmem
    have hrest : ∀ l ∈ chunkLines
        (handleOutput t st c).1.lineBuffer rest, summaryMatch l = none := by
      have hbuf : (handleOutput t st c).1.lineBuffer =
          (splitNl (st.lineBuffer ++ c)).getLastD [] :=
        (handleOutput_core t st c).2.1
      intro l hmem
      rw [hbuf] at hmem
      apply hl l
      simp only [chunkLines, List.mem_append]
      exact Or.inr hmem
    obtain ⟨ho, hi⟩ := handleOutput_no_summary t st c hc
    have h0' : (handleOutput t st c).1.lastCompleteState.isComplete = false := by
      rw [hi]
      cases strIncludes c gettingMarker <;> simp [h0]
    obtain ⟨ih1, ih2⟩ := ih (t + 1) (handleOutput t st c).1 h0' hrest
    simp only [feedChunks]
    exact ⟨ih1, by rw [ih2, ho]⟩

/-- C2 counterexample: a single raw chunk carrying a summary line followed
by the cycle-start marker.  The code tests the marker against the whole
chunk before splitting lines, so the later finalize wins: the resulting
snapshot has `isComplete = true`, while the claim demands
`isComplete = false`. -/
theorem marker_after_summary_cex :
    strIncludes
        (str "svelte-check found 0 errors and 0 warnings\nGetting Svelte diagnostics...\n")
        gettingMarker = true ∧
      (feedChunks 1 (initDaemon 0)
          [str "svelte-check found 0 errors and 0 warnings\nGetting Svelte diagnostics...\n"]).1.lastCompleteState.isComplete
          = true := by
  refine ⟨by decide, by decide⟩

/-- C2 amended: if the cycle-start marker arrives in a chunk such that no
complete line from that chunk on is a summary line (in particular the
marker does not share its chunk with an earlier summary line), the
snapshot ends with `isComplete = false` and `output` unchanged from
before the marker's chunk. -/
theorem marker_incomplete_amended (t : Nat) (st : Daemon) (c : Str)
    (rest : List Str)
    (hm : strIncludes c gettingMarker = true)
    (hl : ∀ l ∈ chunkLines st.lineBuffer (c :: rest),
      summaryMatch l = none) :
    (feedChunks t st (c :: rest)).1.lastCompleteState.isComplete = false ∧
      (feedChunks t st (c :: rest)).1.lastCompleteState.output =
        st.lastCompleteState.output := by
  have hc : ∀ l ∈ (splitNl (st.lineBuffer ++ c)).dropLast,
      summaryMatch l = none := by
    intro l hmem
    apply hl l
    simp only [chunkLines, List.mem_append]
    exact Or.inl hmem
  have hrest : ∀ l ∈ chunkLines
      (handleOutput t st c).1.lineBuffer rest, summaryMatch l = none := by
    have hbuf : (handleOutput t st c).1.lineBuffer =
        (splitNl (st.lineBuffer ++ c)).getLastD [] :=
      (handleOutput_core t st c).2.1
    intro l hmem
    rw [hbuf] at hmem
    apply hl l
    simp only [chunkLines, List.mem_append]
    exact Or.inr hmem
  obtain ⟨ho, hi⟩ := handleOutput_no_summary t st c hc
  rw [hm] at hi
  simp only [if_true] at hi
  obtain ⟨f1, f2⟩ := feed_no_summary_incomplete (t + 1)
    (handleOutput t st c).1 rest hi hrest
  simp only [feedChunks]
  exact ⟨f1, by rw [f2, ho]⟩

/-- Witness for the amended C2: a completed snapshot, then a chunk holding
only the marker line. -/
theorem marker_incomplete_amended_witness :
    strIncludes (str "Getting Svelte diagnostics...\n") gettingMarker
        = true ∧
      (∀ l ∈ chunkLines
          ({ initDaemon 0 with lastCompleteState :=
              { output := str "ok", hasErrors := false, hasWarnings := false,
                isComplete := true, lastUpdate := 0 } } : Daemon).lineBuffer
          [str "Getting Svelte diagnostics...\n"],
        summaryMatch l = none) ∧
      ((feedChunks 4
            { initDaemon 0 with lastCompleteState :=
              { output := str "ok", hasErrors := false, hasWarnings := false,
                isComplete := true, lastUpdate := 0 } }
            [str "Getting Svelte diagnostics...\n"]).1.lastCompleteState.isComplete
          = false ∧
        (feedChunks 4
            { initDaemon 0 with lastCompleteState :=
              { output := str "ok", hasErrors := false, hasWarnings := false,
                isComplete := true, lastUpdate := 0 } }
            [str "Getting Svelte diagnostics...\n"]).1.lastCompleteState.output
          = str "ok") :=
  ⟨by decide, by decide,
    marker_incomplete_amended 4 _ _ [] (by decide) (by decide)⟩

theorem handleLines_preserves_complete (now : Nat) (st : Daemon)
    (ls : List Str) (h : st.lastCompleteState.isComplete = true) :
    (handleLines now st ls).1.lastCompleteState.isComplete = true := by
  induction ls generalizing st with
  | nil => simpa [handleLines] using h
  | cons l rest ih =>
    simp only [handleLines]
    apply ih
    unfold handleLine
    cases hm : summaryMatch l with
    | none => simpa using h
    | some r => obtain ⟨n, m⟩ := r; simp

/-- A daemon whose snapshot is complete (used as the concrete pre-state in
witnesses). -/
def completeDaemon : Daemon :=
  { initDaemon 0 with lastCompleteState :=
      { output := str "ok", hasErrors := false, hasWarnings := false,
        isComplete := true, lastUpdate := 0 } }

/-- C10: the `isComplete = false` transition is local to a single raw
chunk.  (i) Without the full marker substring in the chunk, a complete
snapshot stays complete; (ii) with the marker in the chunk (and no
summary line completing in it), the snapshot ends incomplete; (iii) a
marker split across two consecutive chunks, neither containing the full
substring, never triggers the transition even though the halves are
reassembled in the line buffer. -/
theorem marker_chunk_local :
    (∀ (t : Nat) (st : Daemon) (data : Str),
        st.lastCompleteState.isComplete = true →
        strIncludes data gettingMarker = false →
        (handleOutput t st data).1.lastCompleteState.isComplete = true) ∧
      (∀ (t : Nat) (st : Daemon) (data : Str),
        strIncludes data gettingMarker = true →
        (∀ l ∈ (splitNl (st.lineBuffer ++ data)).dropLast,
          summaryMatch l = none) →
        (handleOutput t st data).1.lastCompleteState.isComplete = false) ∧
      (∀ (t1 t2 : Nat) (st : Daemon) (c1 c2 : Str),
        st.lastCompleteState.isComplete = true →
        strIncludes c1 gettingMarker = false →
        strIncludes c2 gettingMarker = false →
        (handleOutput t2 (handleOutput t1 st c1).1
          c2).1.lastCompleteState.isComplete = true) := by
  have hA : ∀ (t : Nat) (st : Daemon) (data : Str),
      st.lastCompleteState.isComplete = true →
      strIncludes data gettingMarker = false →
      (handleOutput t st data).1.lastCompleteState.isComplete = true := by
    intro t st data h hm
    unfold handleOutput
    simp only [hm]
    exact handleLines_preserves_complete t _ _ (by simpa using h)
  refine ⟨hA, ?_, ?_⟩
  · intro t st data hm hl
    have := (handleOutput_no_summary t st data hl).2
    rw [hm] at this
    simpa using this
  · intro t1 t2 st c1 c2 h h1 h2
    exact hA t2 _ c2 (hA t1 st c1 h h1) h2

/-- Witness for C10: a complete snapshot fed (i) an ordinary line,
(ii) the marker line, (iii) the marker split into two chunks. -/
theorem marker_chunk_local_witness :
    (strIncludes (str "src/app.svelte:3 Error\n") gettingMarker = false ∧
        (handleOutput 2 completeDaemon
          (str "src/app.svelte:3 Error\n")).1.lastCompleteState.isComplete
          = true) ∧
      (strIncludes (str "Getting Svelte diagnostics...\n") gettingMarker
          = true ∧
        (handleOutput 2 completeDaemon
          (str "Getting Svelte diagnostics...\n")).1.lastCompleteState.isComplete
          = false) ∧
      (strIncludes (str "Getting Svelte ") gettingMarker = false ∧
        strIncludes (str "diagnostics...\n") gettingMarker = false ∧
        (handleOutput 3 (handleOutput 2 completeDaemon
          (str "Getting Svelte ")).1
          (str "diagnostics...\n")).1.lastCompleteState.isComplete = true) :=
  ⟨⟨by decide,
      marker_chunk_local.1 2 completeDaemon _ (by decide) (by decide)⟩,
    ⟨by decide,
      marker_chunk_local.2.1 2 completeDaemon _ (by decide) (by decide)⟩,
    by decide, by decide,
    marker_chunk_local.2.2 2 3 completeDaemon _ _ (by decide) (by decide)
      (by decide)⟩

/-- Side effects of the Process Supervisor on the outside world. -/
inductive DaemonAction where
  | killProcess
  | spawnCheck
deriving Repr, DecidableEq

/-- `startSvelteCheck` (`daemon.ts` lines 172–192): spawn the checker and
hold its handle. -/
def startSvelteCheck (st : Daemon) : Daemon × List DaemonAction :=
  ({ st with processAlive := true }, [DaemonAction.spawnCheck])

/-- `restartSvelteCheck` (`daemon.ts` lines 133–148): kill the current
process if any, reset the parser buffers and the snapshot to an
in-progress empty state, then start the checker again. -/
def restartSvelteCheck (now : Nat) (st : Daemon) :
    Daemon × List DaemonAction :=
  let p :=
    if st.processAlive then
      (({ st with processAlive := false } : Daemon), [DaemonAction.killProcess])
    else (st, ([] : List DaemonAction))
  let st2 : Daemon :=
    { p.1 with
        currentOutput := []
        lineBuffer := []
        lastCompleteState :=
          { output := [], hasErrors := false, hasWarnings := false,
            isComplete := false, lastUpdate := now } }
  let q := startSvelteCheck st2
  (q.1, p.2 ++ q.2)

/-- C7: `restart()` kills the current process handle when one exists (and
only then), resets `currentOutput`, `lineBuffer` and the snapshot to the
in-progress empty state, and spawns the checker again. -/
theorem restart_resets (now : Nat) (st : Daemon) :
    (restartSvelteCheck now st).1.currentOutput = [] ∧
      (restartSvelteCheck now st).1.lineBuffer = [] ∧
      (restartSvelteCheck now st).1.lastCompleteState =
        { output := [], hasErrors := false, hasWarnings := false,
          isComplete := false, lastUpdate := now } ∧
      (restartSvelteCheck now st).1.processAlive = true ∧
      (restartSvelteCheck now st).2 =
        (if st.processAlive then [DaemonAction.killProcess] else []) ++
          [DaemonAction.spawnCheck] := by
  cases h : st.processAlive <;>
    simp [restartSvelteCheck, startSvelteCheck, h]

/-- `fs.watch` event kinds relevant to the watcher callbacks. -/
inductive FsEventType where
  | rename
  | change
deriving Repr, DecidableEq

/-- `path.join(dir, name)` for the non-degenerate paths the watcher sees. -/
def joinPath (dir name : Str) : Str := dir ++ '/' :: name

/-- JS `Set.add`: keep insertion order, no duplicates. -/
def insertFile (p : Str) (s : List Str) : List Str :=
  if p ∈ s then s else s ++ [p]

/-- JS `Set.delete`. -/
def eraseFile (p : Str) (s : List Str) : List Str :=
  s.filter (fun q => q ≠ p)

/-- The big-changes watcher callback (`daemon.ts` lines 80–94).
`existsNow` is the value of `fs.existsSync(fullPath)` at event time. -/
def bigChangesEvent (now : Nat) (st : Daemon) (watchDir : Str)
    (eventType : FsEventType) (filename : Option Str) (existsNow : Bool) :
    Daemon × List DaemonAction :=
  match filename with
  | none => (st, [])
  | some name =>
    let fullPath := joinPath watchDir name
    match eventType with
    | FsEventType.rename =>
      if existsNow then
        ({ st with knownFiles := insertFile fullPath st.knownFiles }, [])
      else if fullPath ∈ st.knownFiles then
        restartSvelteCheck now
          { st with knownFiles := eraseFile fullPath st.knownFiles }
      else (st, [])
    | FsEventType.change => (st, [])

/-- C8: case analysis of the big-changes watcher.  A rename event on an
existing path adds/keeps it in the known-file set with no restart; on a
missing known path removes it and triggers exactly one restart; on a
missing unknown path does nothing; non-rename events do nothing. -/
theorem big_changes_event_cases (now : Nat) (st : Daemon) (watchDir : Str)
    (name : Str) (existsNow : Bool) :
    (bigChangesEvent now st watchDir FsEventType.rename (some name) true =
        ({ st with knownFiles :=
            insertFile (joinPath watchDir name) st.knownFiles }, [])) ∧
      (joinPath watchDir name ∈ st.knownFiles →
        bigChangesEvent now st watchDir FsEventType.rename (some name)
            false =
          restartSvelteCheck now
            { st with knownFiles :=
                eraseFile (joinPath watchDir name) st.knownFiles } ∧
        (bigChangesEvent now st watchDir FsEventType.rename (some name)
            false).2.count DaemonAction.spawnCheck = 1) ∧
      (joinPath watchDir name ∉ st.knownFiles →
        bigChangesEvent now st watchDir FsEventType.rename (some name)
            false = (st, [])) ∧
      (bigChangesEvent now st watchDir FsEventType.change (some name)
          existsNow = (st, [])) := by
  refine ⟨by simp [bigChangesEvent], ?_, ?_, by simp [bigChangesEvent]⟩
  · intro hmem
    have he : bigChangesEvent now st watchDir FsEventType.rename (some name)
        false =
        restartSvelteCheck now
          { st with knownFiles :=
              eraseFile (joinPath watchDir name) st.knownFiles } := by
      simp [bigChangesEvent, hmem]
    refine ⟨he, ?_⟩
    rw [he]
    cases h : st.processAlive <;>
      simp [restartSvelteCheck, startSvelteCheck, h]
  · intro hmem
    simp [bigChangesEvent, hmem]

/-- The concrete known-file set and daemon used in the C8 witness. -/
def watchDaemon : Daemon :=
  { initDaemon 0 with knownFiles := [joinPath (str "dir") (str "a.ts")] }

/-- Witness for C8: deletion of a known file restarts once; deletion of an
unknown file does nothing. -/
theorem big_changes_event_cases_witness :
    (joinPath (str "dir") (str "a.ts") ∈ watchDaemon.knownFiles ∧
      (bigChangesEvent 3 watchDaemon (str "dir") FsEventType.rename
          (some (str "a.ts")) false =
        restartSvelteCheck 3
          { watchDaemon with knownFiles := (eraseFile
              (joinPath (str "dir") (str "a.ts")) watchDaemon.knownFiles) } ∧
      (bigChangesEvent 3 watchDaemon (str "dir") FsEventType.rename
          (some (str "a.ts")) false).2.count DaemonAction.spawnCheck = 1)) ∧
      (joinPath (str "dir") (str "b.ts") ∉ watchDaemon.knownFiles ∧
        bigChangesEvent 3 watchDaemon (str "dir") FsEventType.rename
            (some (str "b.ts")) false = (watchDaemon, [])) :=
  ⟨⟨by decide,
      (big_changes_event_cases 3 watchDaemon (str "dir") (str "a.ts")
        false).2.1 (by decide)⟩,
    by decide,
    (big_changes_event_cases 3 watchDaemon (str "dir") (str "b.ts")
        false).2.2.1 (by decide)⟩

/-- The promise state inside `getStatusFromDaemon` (`client.ts` lines
14–40): the accumulated response text, the first resolution value (outer
`none` = still pending), whether the 5-second `setTimeout` is still
pending, and whether the socket is open. -/
structure QueryState where
  buf : Str
  resolvedValue : Option (Option DaemonState)
  timerPending : Bool
  socketOpen : Bool
deriving Repr, DecidableEq

/-- State right after `net.createConnection` and `setTimeout(…, 5000)`
have been set up. -/
def initQueryState : QueryState :=
  { buf := [], resolvedValue := none, timerPending := true,
    socketOpen := true }

/-- The asynchronous callbacks that can fire on the client connection. -/
inductive ClientEvent where
  | dataChunk (chunk : Str)
  | connEnd
  | connError
  | timeoutFire
deriving Repr, DecidableEq

/-- `resolve(v)`: only the first resolution of a promise takes effect. -/
def resolveOnce (v : Option DaemonState) (st : QueryState) : QueryState :=
  match st.resolvedValue with
  | some _ => st
  | none => { st with resolvedValue := some v }

/-- One callback of `getStatusFromDaemon`, as registered in the code.
`parse` abstracts `JSON.parse` (returning `none` on a parse failure).
An `end` or `error` event closes the socket (Node default
`allowHalfOpen: false`); only the timeout callback clears the timer
(`socket.destroy(); resolve(null)`) — no handler calls `clearTimeout`. -/
def clientStep (parse : Str → Option DaemonState) (st : QueryState) :
    ClientEvent → QueryState
  | ClientEvent.dataChunk c => { st with buf := st.buf ++ c }
  | ClientEvent.connEnd =>
    resolveOnce (parse st.buf) { st with socketOpen := false }
  | ClientEvent.connError => resolveOnce none { st with socketOpen := false }
  | ClientEvent.timeoutFire =>
    resolveOnce none { st with timerPending := false, socketOpen := false }

/-- Run the connection's callbacks in arrival order. -/
def runEvents (parse : Str → Option DaemonState) (st : QueryState)
    (events : List ClientEvent) : QueryState :=
  events.foldl (clientStep parse) st

/-- C3 failing run: the daemon ends the connection before the 5-second
ceiling (here with an unparsable buffer, the parse-failure exit path;
the same run with any `parse` covers the successful-parse path).  The
promise resolves, yet the 5-second timer is still pending, because no
exit path except the timeout itself clears it. -/
theorem query_resolution_leaves_timer_pending :
    ((runEvents (fun _ => none) initQueryState
          [ClientEvent.connEnd]).resolvedValue).isSome = true ∧
      (runEvents (fun _ => none) initQueryState
          [ClientEvent.connEnd]).timerPending = true ∧
      (runEvents (fun _ => none) initQueryState
          [ClientEvent.connEnd]).socketOpen = false :=
  ⟨rfl, rfl, rfl⟩

/-- Externally visible side effects of the Client Query Helper. -/
inductive ClientAction where
  | connectAttempt
deriving Repr, DecidableEq

/-- `getStatusFromDaemon` (`client.ts` lines 7–40): if the socket file
does not exist, return `null` immediately; otherwise connect and run the
connection's event callbacks.  `socketExists` abstracts
`fs.existsSync(socketPath)`; the returned action list records whether
`net.createConnection` was invoked. -/
def getStatusFromDaemon (parse : Str → Option DaemonState)
    (socketExists : Bool) (events : List ClientEvent) :
    Option DaemonState × List ClientAction :=
  if socketExists then
    ((runEvents parse initQueryState events).resolvedValue.join,
      [ClientAction.connectAttempt])
  else (none, [])

/-- C9: with no socket file, `getStatusFromDaemon` returns "no daemon"
(`null`) with no connection attempt, whatever would have happened on a
connection. -/
theorem no_socket_no_connect (parse : Str → Option DaemonState)
    (events : List ClientEvent) :
    getStatusFromDaemon parse false events = (none, []) := rfl

/-- JS `.trim()`: strip whitespace from both ends. -/
def jsTrim (l : Str) : Str := trimEnd (l.dropWhile isJsSpace)

/-- `JSON.stringify` of a boolean. -/
def boolStr (b : Bool) : Str := if b then str "true" else str "false"

/-- Lowercase hex digit, for `\u00XX` escapes. -/
def hexDig (n : Nat) : Char :=
  if n < 10 then Char.ofNat (48 + n) else Char.ofNat (87 + n)

/-- `JSON.stringify` escaping of one character inside a string literal. -/
def escChar (c : Char) : Str :=
  if c = '"' then ['\\', '"']
  else if c = '\\' then ['\\', '\\']
  else if c = '\x08' then ['\\', 'b']
  else if c = '\t' then ['\\', 't']
  else if c = '\n' then ['\\', 'n']
  else if c = '\x0c' then ['\\', 'f']
  else if c = '\r' then ['\\', 'r']
  else if c.toNat < 32 then
    ['\\', 'u', '0', '0', hexDig (c.toNat / 16), hexDig (c.toNat % 16)]
  else [c]

def jsonEscape (s : Str) : Str := s.flatMap escChar

/-- `JSON.stringify(this.getState())`: the snapshot serialized with its
five fields in declaration order. -/
def serializeState (s : DaemonState) : Str :=
  str "\x7b\"output\":\"" ++ jsonEscape s.output ++
    str "\",\"hasErrors\":" ++ boolStr s.hasErrors ++
    str ",\"hasWarnings\":" ++ boolStr s.hasWarnings ++
    str ",\"isComplete\":" ++ boolStr s.isComplete ++
    str ",\"lastUpdate\":" ++ (Nat.repr s.lastUpdate).data ++ str "\x7d"

/-- What the server does with one connection `data` event. -/
structure ServerReply where
  response : Option Str
  closed : Bool
deriving Repr, DecidableEq

/-- The socket server's `data` callback (`daemon.ts` lines 238–260): trim
the payload, compare with `GET_STATUS`; on a match write the serialized
snapshot and end the connection, otherwise do nothing. -/
def handleRequest (state : DaemonState) (data : Str) : ServerReply :=
  if jsTrim data = str "GET_STATUS" then
    { response := some (serializeState state), closed := true }
  else
    { response := none, closed := false }

/-- The concrete snapshot used in the C6 counterexample and witness. -/
def sampleState : DaemonState :=
  { output := str "ok", hasErrors := true, hasWarnings := false,
    isComplete := true, lastUpdate := 42 }

/-- C6 counterexample: the payload `"GET_STATUS\n"` does not exactly match
the literal token `GET_STATUS`, yet the server answers it (the code trims
the payload before comparing) and closes the connection — the claim says
any payload other than the exact token receives no response and no
close. -/
theorem get_status_trim_cex :
    str "GET_STATUS\n" ≠ str "GET_STATUS" ∧
      handleRequest sampleState (str "GET_STATUS\n") =
        { response := some (serializeState sampleState), closed := true } := by
  constructor
  · decide
  · have h : jsTrim (str "GET_STATUS\n") = str "GET_STATUS" := by decide
    simp [handleRequest, h]

/-- C6 amended: a payload whose JS-trim equals `GET_STATUS` receives the
serialized snapshot (fields `output`, `hasErrors`, `hasWarnings`,
`isComplete`, `lastUpdate`) followed by connection close; a payload whose
trim differs receives no response and no server-side close. -/
theorem get_status_request (state : DaemonState) (data : Str) :
    (jsTrim data = str "GET_STATUS" →
      handleRequest state data =
        { response := some (serializeState state), closed := true }) ∧
      (jsTrim data ≠ str "GET_STATUS" →
        handleRequest state data = { response := none, closed := false }) := by
  constructor <;> intro h <;> simp [handleRequest, h]

/-- Witness for the amended C6: a padded token is answered and closed, a
different request is ignored. -/
theorem get_status_request_witness :
    (jsTrim (str "  GET_STATUS\n") = str "GET_STATUS" ∧
      handleRequest sampleState (str "  GET_STATUS\n") =
        { response := some (serializeState sampleState), closed := true }) ∧
      (jsTrim (str "PING") ≠ str "GET_STATUS" ∧
        handleRequest sampleState (str "PING") =
          { response := none, closed := false }) :=
  ⟨⟨by decide, (get_status_request sampleState _).1 (by decide)⟩,
    ⟨by decide, (get_status_request sampleState _).2 (by decide)⟩⟩
